import Mathlib

/-!
Verification of the GitHub activity aggregation pipeline in
src/flyt/parse_github_data.py against its design specification.

The Python source is shallowly embedded: JSON payloads become an inductive
type, datetimes become integer (or rational) epoch seconds, the on-disk
cache becomes a map from cache key to a file-state value, HTTP traffic
becomes an explicit list of scripted responses consumed in order, and
fallible Python code returns Except values whose error constructors name
the Python exception that would be raised.  Thread pools are modelled by
quantifying over the completion order of the submitted tasks.
-/

set_option linter.unusedVariables false

/-- Model of a parsed JSON value (the result of response.json() or
json.load).  Numbers are modelled as integers: every numeric field the
analyzer touches is an integer count. -/
inductive Json where
  | null
  | bool (b : Bool)
  | num (n : Int)
  | str (s : String)
  | arr (elems : List Json)
  | obj (fields : List (String × Json))

/-- Model of a scalar query-parameter value.  Every call site of
_paginated_get and Cache passes a flat dict of strings and ints. -/
inductive PVal where
  | str (s : String)
  | int (n : Int)
deriving DecidableEq

/-- Query parameters: a Python dict of scalars, in insertion order. -/
abbrev Params := List (String × PVal)

/-- Python exceptions that the embedded code can raise. -/
inductive PyErr where
  | httpError (status : Nat)
  | noResponse
  | osError
  | valueError
  | typeError
  | zeroDivisionError
deriving DecidableEq

/-! Decimal rendering and parsing of epoch-second timestamps.  This models
the datetime.isoformat / datetime.fromisoformat pair used by Cache: the
exact ISO-8601 surface syntax is abstracted to the decimal rendering of the
epoch time, which preserves the two properties the cache code relies on:
formatting then parsing restores the instant, and arbitrary other strings
can fail to parse (raising ValueError in Python). -/

/-- Character for a single decimal digit. -/
def digitChar (d : Nat) : Char :=
  match d with
  | 0 => ('0')
  | 1 => ('1')
  | 2 => ('2')
  | 3 => ('3')
  | 4 => ('4')
  | 5 => ('5')
  | 6 => ('6')
  | 7 => ('7')
  | 8 => ('8')
  | 9 => ('9')
  | _ => ('!')

/-- Inverse of digitChar; none on a non-digit character. -/
def charDigit (c : Char) : Option Nat :=
  match c with
  | ('0') => some 0
  | ('1') => some 1
  | ('2') => some 2
  | ('3') => some 3
  | ('4') => some 4
  | ('5') => some 5
  | ('6') => some 6
  | ('7') => some 7
  | ('8') => some 8
  | ('9') => some 9
  | _ => none

/-- Accumulating decimal parse over a character list. -/
def parseDigits : Nat → List Char → Option Nat
  | acc, [] => some acc
  | acc, c :: cs =>
    match charDigit c with
    | some d => parseDigits (acc * 10 + d) cs
    | none => none

/-- Parse a nonempty all-digit character list as a natural number. -/
def parseNatChars (cs : List Char) : Option Nat :=
  match cs with
  | [] => none
  | _ => parseDigits 0 cs

/-- Big-endian decimal digit characters of a natural number. -/
def natChars (n : Nat) : List Char :=
  if n = 0 then [('0')] else (Nat.digits 10 n).reverse.map digitChar

/-- Model of datetime.isoformat: render the epoch time. -/
def isoFormat (t : Int) : String :=
  if t < 0 then ⟨('-') :: natChars t.natAbs⟩ else ⟨natChars t.natAbs⟩

/-- Model of datetime.fromisoformat: parse the rendered epoch time,
none modelling the ValueError Python raises on a malformed string. -/
def fromIso (s : String) : Option Int :=
  match s.data with
  | [] => none
  | c :: cs =>
    if c = ('-') then
      match parseNatChars cs with
      | some n => some (-(n : Int))
      | none => none
    else
      match parseNatChars (c :: cs) with
      | some n => some ((n : Int))
      | none => none

theorem charDigit_digitChar : ∀ d : Nat, d < 10 → charDigit (digitChar d) = some d := by
  decide

theorem parseDigits_map_digitChar (ds : List Nat) :
    ∀ acc : Nat, (∀ d ∈ ds, d < 10) →
      parseDigits acc (ds.map digitChar) = some (ds.foldl (fun a d => a * 10 + d) acc) := by
  induction ds with
  | nil => intro acc h; rfl
  | cons d ds ih =>
    intro acc h
    have hd : d < 10 := h d (List.mem_cons_self d ds)
    simp only [List.map_cons, parseDigits, charDigit_digitChar d hd, List.foldl_cons]
    exact ih (acc * 10 + d) (fun x hx => h x (List.mem_cons_of_mem d hx))

theorem foldl_reverse_ofDigits (L : List Nat) :
    ∀ acc : Nat, L.reverse.foldl (fun a d => a * 10 + d) acc =
      acc * 10 ^ L.length + Nat.ofDigits 10 L := by
  induction L with
  | nil => intro acc; simp
  | cons d L ih =>
    intro acc
    simp only [List.reverse_cons, List.foldl_append, List.foldl_cons, List.foldl_nil, ih,
      List.length_cons, Nat.ofDigits_cons]
    ring

theorem parseNatChars_natChars (n : Nat) : parseNatChars (natChars n) = some n := by
  by_cases h0 : n = 0
  · subst h0; rfl
  · have hne : Nat.digits 10 n ≠ [] := Nat.digits_ne_nil_iff_ne_zero.mpr h0
    have hlt : ∀ d ∈ (Nat.digits 10 n).reverse, d < 10 := by
      intro d hd
      exact Nat.digits_lt_base (by norm_num) (List.mem_reverse.mp hd)
    have hparse := parseDigits_map_digitChar (Nat.digits 10 n).reverse 0 hlt
    rw [foldl_reverse_ofDigits (Nat.digits 10 n) 0, Nat.ofDigits_digits, Nat.zero_mul,
      Nat.zero_add] at hparse
    unfold natChars parseNatChars
    rw [if_neg h0]
    have hmapne : (Nat.digits 10 n).reverse.map digitChar ≠ [] := by
      simp [hne]
    cases hmap : (Nat.digits 10 n).reverse.map digitChar with
    | nil => exact absurd hmap hmapne
    | cons c cs =>
      show parseDigits 0 (c :: cs) = some n
      rw [← hmap]
      exact hparse

theorem digitChar_ne_minus : ∀ d : Nat, d < 10 → digitChar d ≠ ('-') := by
  decide

theorem natChars_no_minus (n : Nat) : ∀ c ∈ natChars n, c ≠ ('-') := by
  intro c hc
  unfold natChars at hc
  by_cases h0 : n = 0
  · rw [if_pos h0] at hc
    simp only [List.mem_singleton] at hc
    subst hc; decide
  · rw [if_neg h0] at hc
    obtain ⟨d, hd, hdc⟩ := List.mem_map.mp hc
    have hdlt : d < 10 := Nat.digits_lt_base (by norm_num) (List.mem_reverse.mp hd)
    subst hdc
    exact digitChar_ne_minus d hdlt

theorem natChars_ne_nil (n : Nat) : natChars n ≠ [] := by
  unfold natChars
  by_cases h0 : n = 0
  · rw [if_pos h0]; simp
  · rw [if_neg h0]
    simp [Nat.digits_ne_nil_iff_ne_zero.mpr h0]

theorem fromIso_isoFormat (t : Int) : fromIso (isoFormat t) = some t := by
  by_cases ht : t < 0
  · have h1 : isoFormat t = ⟨('-') :: natChars t.natAbs⟩ := by
      unfold isoFormat; rw [if_pos ht]
    rw [h1]
    show (if ('-') = ('-') then
            match parseNatChars (natChars t.natAbs) with
            | some n => some (-(n : Int))
            | none => none
          else
            match parseNatChars (('-') :: natChars t.natAbs) with
            | some n => some ((n : Int))
            | none => none) = some t
    rw [if_pos rfl, parseNatChars_natChars]
    show some (-((t.natAbs : Int))) = some t
    have habs : -((t.natAbs : Int)) = t := by omega
    rw [habs]
  · have h1 : isoFormat t = ⟨natChars t.natAbs⟩ := by
      unfold isoFormat; rw [if_neg ht]
    rw [h1]
    cases hm : natChars t.natAbs with
    | nil => exact absurd hm (natChars_ne_nil t.natAbs)
    | cons c cs =>
      have hcm : c ∈ natChars t.natAbs := by rw [hm]; exact List.mem_cons_self c cs
      show (if c = ('-') then
              match parseNatChars cs with
              | some n => some (-(n : Int))
              | none => none
            else
              match parseNatChars (c :: cs) with
              | some n => some ((n : Int))
              | none => none) = some t
      rw [if_neg (natChars_no_minus t.natAbs c hcm), ← hm, parseNatChars_natChars]
      show some ((t.natAbs : Int)) = some t
      have habs : ((t.natAbs : Int)) = t := by omega
      rw [habs]

/-! Cache model (class Cache).  The cache directory becomes a map from
cache key to the state of the file stored under that key.  A file can be
absent, unreadable (opening it raises OSError), syntactically invalid JSON
(json.load raises json.JSONDecodeError), or a parsed JSON value. -/

/-- State of one cache file on disk, as Cache.get observes it. -/
inductive FileState where
  | unreadable
  | invalid
  | val (j : Json)

/-- The cache directory: contents of the file for each cache key. -/
abbrev CacheStore := Nat → Option FileState

/-- Rendering of a scalar parameter value inside json.dumps output. -/
def dumpsPVal : PVal → String
  | PVal.str s => ("\"") ++ s ++ ("\"")
  | PVal.int n => toString n

/-- Rendering of the fields of a params dict with the default json.dumps
separators (comma-space between items, colon-space inside an item). -/
def dumpsFields : List (String × PVal) → String
  | [] => ""
  | [(k, v)] => ("\"") ++ k ++ ("\": ") ++ dumpsPVal v
  | (k, v) :: rest => ("\"") ++ k ++ ("\": ") ++ dumpsPVal v ++ (", ") ++ dumpsFields rest

/-- Ordering of dict entries by key, as produced by json.dumps with
sort_keys set. -/
def keyLe (a b : String × PVal) : Prop := a.1 ≤ b.1

instance : DecidableRel keyLe := fun a b => inferInstanceAs (Decidable (a.1 ≤ b.1))

/-- Entries of the params dict in sorted key order. -/
def sortParams (ps : Params) : Params := List.insertionSort keyLe ps

/-- Model of json.dumps(params, sort_keys=True). -/
def dumpsParams (ps : Params) : String :=
  ("\x7b") ++ dumpsFields (sortParams ps) ++ ("\x7d")

/-- The string hashed by Cache._get_cache_key: url, a colon, and the
sorted-key serialization of the params. -/
def cacheKeyContent (url : String) (ps : Params) : String :=
  url ++ (":") ++ dumpsParams ps

/-- Model of the MD5 hex digest: an arbitrary deterministic digest
function of the content string.  The cache code relies only on the digest
being a deterministic function of its input. -/
def md5Model (s : String) : Nat :=
  s.data.foldl (fun h c => (h * 31 + c.toNat) % 4294967296) 5381

/-- Model of Cache._get_cache_key. -/
def cacheKey (url : String) (ps : Params) : Nat :=
  md5Model (cacheKeyContent url ps)

/-- Key of the timestamp entry of a cache file. -/
def tsKey : String := "timestamp"

/-- Key of the payload entry of a cache file. -/
def dataKey : String := "data"

/-- The JSON object Cache.set writes: current time plus payload. -/
def mkCacheFile (now : Int) (data : Json) : Json :=
  Json.obj [(tsKey, Json.str (isoFormat now)), (dataKey, data)]

/-- Model of Cache.set: write the file for this key, overwriting any
previous content. -/
def cacheSet (store : CacheStore) (now : Int) (url : String) (ps : Params)
    (data : Json) : CacheStore :=
  fun k => if k = cacheKey url ps then some (FileState.val (mkCacheFile now data)) else store k

/-- Model of Cache.get.  The ttl is ttl_hours hours, compared in seconds
against now minus the stored timestamp.  The except clause of the source
catches exactly json.JSONDecodeError and KeyError; every other exception
escapes to the caller and is modelled by an error value: OSError from an
unreadable file, TypeError from indexing a non-dict or passing a non-string
to fromisoformat, ValueError from fromisoformat on a malformed string. -/
def cacheGet (store : CacheStore) (ttlHours : Int) (now : Int) (url : String)
    (ps : Params) : Except PyErr (Option Json) :=
  match store (cacheKey url ps) with
  | none => Except.ok none
  | some FileState.unreadable => Except.error PyErr.osError
  | some FileState.invalid => Except.ok none
  | some (FileState.val j) =>
    match j with
    | Json.obj fields =>
      match fields.lookup tsKey with
      | none => Except.ok none
      | some (Json.str s) =>
        match fromIso s with
        | none => Except.error PyErr.valueError
        | some t =>
          if 3600 * ttlHours < now - t then Except.ok none
          else
            match fields.lookup dataKey with
            | none => Except.ok none
            | some d => Except.ok (some d)
      | some _ => Except.error PyErr.typeError
    | _ => Except.error PyErr.typeError

/-! Rate limit model (class RateLimit, _update_rate_limit,
_wait_for_rate_limit). -/

/-- The three X-RateLimit response headers, already converted through int;
none models an absent header. -/
structure HeadersModel where
  remaining : Option Int
  limit : Option Int
  reset : Option Int

/-- Model of the RateLimit dataclass.  reset_time is epoch seconds; it is
rational because it is compared against datetime.now(). -/
structure RateLimit where
  remaining : Int
  limit : Int
  reset_time : Rat
deriving DecidableEq

/-- Model of RateLimit.from_response: absent headers default to zero. -/
def rateLimitFromResponse (h : HeadersModel) : RateLimit :=
  { remaining := h.remaining.getD 0
    limit := h.limit.getD 0
    reset_time := ((h.reset.getD 0 : Int) : Rat) }

/-- Model of _update_rate_limit: replace the snapshot, then compute the
remaining percentage and decide whether to emit the low-quota warning.
The division remaining / limit raises ZeroDivisionError when limit is
zero, which is what the defaulted value of a missing limit header is. -/
def updateRateLimit (h : HeadersModel) : Except PyErr (RateLimit × Bool) :=
  let rl := rateLimitFromResponse h
  if rl.limit = 0 then Except.error PyErr.zeroDivisionError
  else Except.ok (rl, decide ((rl.remaining : Rat) / (rl.limit : Rat) * 100 < 20))

/-- Model of _wait_for_rate_limit: the returned value is the duration of
the time.sleep call, none when the method returns without sleeping. -/
def waitForRateLimit (rl : Option RateLimit) (now : Rat) : Option Rat :=
  match rl with
  | none => none
  | some r =>
    if r.remaining = 0 then
      let w := r.reset_time - now
      if 0 < w then some (w + 1) else none
    else none

/-! Pagination model (_paginated_get and _get_next_page_url).  The server
is scripted as a list of responses consumed one per GET request.  The next
field of a response is the url of the next relation parsed from the Link
header, none when the header has no next relation. -/

/-- Parsed JSON body of one response: either a list of items or a single
non-list value. -/
inductive Body where
  | items (xs : List Json)
  | single (j : Json)

/-- Whether the parsed body is a Python list. -/
def Body.isList : Body → Bool
  | Body.items _ => true
  | Body.single _ => false

/-- Items of a list body, empty for a non-list body. -/
def Body.itemsD : Body → List Json
  | Body.items xs => xs
  | Body.single _ => []

/-- One scripted HTTP response: status code, parsed JSON body, and the
next relation of the Link header. -/
structure PageResponse where
  status : Nat
  body : Body
  next : Option String

/-- The request log: for each GET issued, the url requested and the params
argument passed to requests.get (none models params=None). -/
abbrev ReqLog := List (String × Option Params)

/-- Model of the while loop of _paginated_get.  The loop runs while
current_url is truthy; each iteration issues one GET consuming the next
scripted response, passes the original params exactly when the current url
equals the original url, raises for a non-2xx status, replaces the
accumulator with the singleton body and stops on a non-list body,
otherwise appends the page items and follows the next relation.  The
rate-limit wait and snapshot update performed inside the loop are I/O
effects that do not influence the returned data and are modelled
separately (waitForRateLimit, updateRateLimit).  Requesting past the end
of the script is the noResponse error, which no theorem below reaches. -/
def paginatedLoop (origUrl : String) (origParams : Params) :
    String → List PageResponse → List Json → ReqLog →
    Except PyErr (List Json × ReqLog)
  | currentUrl, pages, acc, log =>
    if currentUrl.isEmpty then Except.ok (acc, log)
    else
      match pages with
      | [] => Except.error PyErr.noResponse
      | r :: rest =>
        let pval : Option Params := if currentUrl == origUrl then some origParams else none
        let log2 := log ++ [(currentUrl, pval)]
        if 400 ≤ r.status then Except.error (PyErr.httpError r.status)
        else
          match r.body with
          | Body.single j => Except.ok ([j], log2)
          | Body.items items =>
            match r.next with
            | none => Except.ok (acc ++ items, log2)
            | some nxt => paginatedLoop origUrl origParams nxt rest (acc ++ items) log2

/-- Model of _paginated_get: consult the cache first; on a hit return the
cached payload, on a miss run the pagination loop and store the
accumulated list back under the original request key. -/
def paginatedGet (store : CacheStore) (ttlHours : Int) (now : Int) (url : String)
    (ps : Params) (pages : List PageResponse) :
    Except PyErr (Json × ReqLog × CacheStore) :=
  match cacheGet store ttlHours now url ps with
  | Except.error e => Except.error e
  | Except.ok (some cached) => Except.ok (cached, [], store)
  | Except.ok none =>
    match paginatedLoop url ps url pages [] [] with
    | Except.error e => Except.error e
    | Except.ok (items, log) =>
      Except.ok (Json.arr items, log, cacheSet store now url ps (Json.arr items))

/-- Request log of a paginated fetch, empty when the fetch raised. -/
def pgLog : Except PyErr (Json × ReqLog × CacheStore) → ReqLog
  | Except.ok (_, log, _) => log
  | Except.error _ => []

/-- Well-linked chain of successful pages: every page is a successful list
response, every page except the last names the next page via a nonempty
next url, and the last page has no next relation. -/
def chainOk : List PageResponse → List String → Bool
  | [r], [] => decide (r.status < 400) && r.body.isList && r.next == none
  | r :: rest, u :: us =>
    decide (r.status < 400) && r.body.isList && r.next == some u && !u.isEmpty &&
      chainOk rest us
  | _, _ => false

/-- Concatenation of the items of the pages, in page order. -/
def itemsOf : List PageResponse → List Json
  | [] => []
  | r :: rest => r.body.itemsD ++ itemsOf rest

/-- The params argument _paginated_get passes for a GET to url u. -/
def reqParams (origUrl : String) (ps : Params) (u : String) : Option Params :=
  if u == origUrl then some ps else none

/-- The claim that the callers params are attached only to the first
request of the log. -/
def paramsOnlyFirst (log : ReqLog) : Prop :=
  ∀ i e, log.get? (i + 1) = some e → e.2 = none

theorem paginatedLoop_chain (origUrl : String) (ps : Params) :
    ∀ pages urls currentUrl acc log, chainOk pages urls = true →
      currentUrl.isEmpty = false →
      paginatedLoop origUrl ps currentUrl pages acc log =
        Except.ok (acc ++ itemsOf pages,
          log ++ (currentUrl, reqParams origUrl ps currentUrl) ::
            urls.map (fun u => (u, reqParams origUrl ps u))) := by
  intro pages
  induction pages with
  | nil =>
    intro urls currentUrl acc log hchain hurl
    exfalso
    cases urls <;> simp [chainOk] at hchain
  | cons r rest ih =>
    intro urls currentUrl acc log hchain hurl
    cases urls with
    | nil =>
      cases rest with
      | cons r2 rest2 => simp [chainOk] at hchain
      | nil =>
        simp only [chainOk, Bool.and_eq_true, beq_iff_eq, decide_eq_true_eq] at hchain
        obtain ⟨⟨hstatus, hlist⟩, hnext⟩ := hchain
        unfold paginatedLoop
        rw [hurl]
        simp only [Bool.false_eq_true, if_false]
        rw [if_neg (by omega)]
        cases hb : r.body with
        | single j => rw [hb] at hlist; simp [Body.isList] at hlist
        | items items =>
          simp only [hnext]
          simp [itemsOf, Body.itemsD, hb, reqParams]
    | cons u us =>
      simp only [chainOk, Bool.and_eq_true, beq_iff_eq, decide_eq_true_eq,
        Bool.not_eq_true'] at hchain
      obtain ⟨⟨⟨⟨hstatus, hlist⟩, hnext⟩, huemp⟩, hrest⟩ := hchain
      unfold paginatedLoop
      rw [hurl]
      simp only [Bool.false_eq_true, if_false]
      rw [if_neg (by omega)]
      cases hb : r.body with
      | single j => rw [hb] at hlist; simp [Body.isList] at hlist
      | items items =>
        simp only [hnext]
        rw [ih us u (acc ++ items) _ hrest huemp]
        simp [itemsOf, Body.itemsD, hb, List.append_assoc, reqParams]

/-! Fan-out model (_fetch_all_pr_data process_pr and its ThreadPoolExecutor
collection).  The records below type the GitHub API payloads by the fields
get_member_stats reads; timestamps are epoch seconds. -/

/-- One PR review, as returned by the reviews endpoint. -/
structure Review where
  user_login : String
  state : String
deriving DecidableEq

/-- One inline review comment or discussion comment. -/
structure IComment where
  user_login : String
deriving DecidableEq

/-- One pull request from the list endpoint. -/
structure PR where
  number : Nat
  user_login : String
  state : String
  created_at : Int
  closed_at : Int
  additions : Int
  deletions : Int
deriving DecidableEq

/-- The per-PR lookup entry built by _fetch_all_pr_data. -/
structure PRDetail where
  pr : PR
  reviews : List Review
  review_comments : List IComment
  comments : List IComment
deriving DecidableEq

/-- Whether an embedded computation raised. -/
def raises {α : Type} (r : Except PyErr α) : Bool :=
  match r with
  | Except.ok _ => false
  | Except.error _ => true

/-- Model of process_pr: run the three detail fetches for the PR (the
fetch oracle stands for the try block of three _paginated_get calls);
any exception is caught inside the worker, which then returns None. -/
def processPr (fetch : Nat → Except PyErr PRDetail) (pr : PR) :
    Option (Nat × PRDetail) :=
  match fetch pr.number with
  | Except.ok d => some (pr.number, d)
  | Except.error _ => none

/-- Model of the bounded-pool fan-out collection: the workers results are
gathered in completion order (order, an arbitrary permutation of the
submitted items, covers every order the chunked as_completed loop can
produce), and a worker that returned None contributes no entry. -/
def mapConcurrently {α κ β : Type} (worker : α → Option (κ × β))
    (order : List α) : List (κ × β) :=
  order.filterMap worker

/-- Keys present in the collected result mapping. -/
def resultKeys {κ β : Type} (m : List (κ × β)) : List κ := m.map Prod.fst

/-! Member statistics model (get_member_stats and its helpers).  The
unused local variable since of the source is dropped. -/

/-- All reviews of all PRs, in lookup-table order (the source iterates
pr_data.items() and walks each reviews list). -/
def allReviews : List PRDetail → List Review
  | [] => []
  | d :: ds => d.reviews ++ allReviews ds

/-- All inline review comments of all PRs, in the same order. -/
def allReviewComments : List PRDetail → List IComment
  | [] => []
  | d :: ds => d.review_comments ++ allReviewComments ds

/-- All discussion comments of all PRs, in the same order. -/
def allDiscussionComments : List PRDetail → List IComment
  | [] => []
  | d :: ds => d.comments ++ allDiscussionComments ds

/-- Model of _calculate_pr_duration, in hours. -/
def calculatePrDuration (now : Rat) (pr : PR) : Rat :=
  ((if pr.state == ("open") then now else (pr.closed_at : Rat)) - (pr.created_at : Rat)) / 3600

/-- Model of _calculate_pr_engagement. -/
def calculatePrEngagement (d : PRDetail) : Nat :=
  d.comments.length * 2 + d.review_comments.length * 3 + d.reviews.length * 2

/-- Model of calculate_pr_complexity_multiplier. -/
def prComplexityMultiplier (pr : PR) : Rat :=
  if 1000 < pr.additions + pr.deletions then 3 / 2
  else if 500 < pr.additions + pr.deletions then 5 / 4
  else 1

/-- Python round-half-to-even on a rational. -/
def pyRoundHalfEven (q : Rat) : Int :=
  let f := Int.floor q
  let r := q - (f : Rat)
  if r < 1 / 2 then f
  else if 1 / 2 < r then f + 1
  else if f % 2 = 0 then f else f + 1

/-- Model of round(x, 1). -/
def pyRound1 (q : Rat) : Rat := ((pyRoundHalfEven (q * 10) : Rat)) / 10

/-- The record get_member_stats returns. -/
structure MemberStats where
  username : String
  commit_count : Nat
  pr_count : Nat
  reviews_given : Nat
  reviews_approved : Nat
  reviews_changes_requested : Nat
  reviews_commented : Nat
  review_comments : Nat
  pr_comments : Nat
  total_comments : Nat
  contribution_score : Rat
  avg_pr_duration_hours : Rat
  avg_pr_engagement : Rat

/-- The reviews a given user performed, across all PRs. -/
def userReviews (username : String) (prData : List PRDetail) : List Review :=
  (allReviews prData).filter (fun r => r.user_login == username)

/-- Model of get_member_stats over the pre-fetched PR lookup table.  The
commitsOf oracle stands for the network-backed _get_pr_commits_count
(length of the commits listing of one PR).  defaultdict review_stats is
denoted by per-state counts over the users reviews; the sum of all its
values is the total number of reviews the user performed, since each
review increments exactly one bucket. -/
def getMemberStats (commitsOf : Nat → Nat) (now : Rat) (username : String)
    (prData : List PRDetail) : MemberStats :=
  let createdData := prData.filter (fun d => d.pr.user_login == username)
  let createdPrs := createdData.map (fun d => d.pr)
  let prDurations := createdData.map (fun d => calculatePrDuration now d.pr)
  let prEngagements := createdData.map (fun d => ((calculatePrEngagement d : Nat) : Rat))
  let urevs := userReviews username prData
  let reviewsApproved := urevs.countP (fun r => r.state == ("APPROVED"))
  let reviewsChangesRequested := urevs.countP (fun r => r.state == ("CHANGES_REQUESTED"))
  let reviewsCommented := urevs.countP (fun r => r.state == ("COMMENTED"))
  let reviewCommentsCount :=
    (allReviewComments prData).countP (fun c => c.user_login == username)
  let prCommentsCount :=
    (allDiscussionComments prData).countP (fun c => c.user_login == username)
  let totalComments := reviewCommentsCount + prCommentsCount
  let totalReviews := urevs.length
  let totalCommits := (createdPrs.map (fun pr => commitsOf pr.number)).sum
  let avgDuration : Rat :=
    if prDurations.length = 0 then 0 else prDurations.sum / (prDurations.length : Rat)
  let avgEngagement : Rat :=
    if prEngagements.length = 0 then 0 else prEngagements.sum / (prEngagements.length : Rat)
  let commitScore : Rat := (totalCommits : Rat) * 2
  let prScore : Rat := (createdPrs.map (fun pr => prComplexityMultiplier pr * 5)).sum
  let reviewScore : Rat :=
    (reviewsApproved : Rat) * 3 + (reviewsChangesRequested : Rat) * 4 +
      (reviewsCommented : Rat) * 2
  let commentScore : Rat := (reviewCommentsCount : Rat) * 2 + (prCommentsCount : Rat) * (3 / 2)
  let engagementBonus : Rat := avgEngagement * 1
  { username := username
    commit_count := totalCommits
    pr_count := createdPrs.length
    reviews_given := totalReviews
    reviews_approved := reviewsApproved
    reviews_changes_requested := reviewsChangesRequested
    reviews_commented := reviewsCommented
    review_comments := reviewCommentsCount
    pr_comments := prCommentsCount
    total_comments := totalComments
    contribution_score := commitScore + prScore + reviewScore + commentScore + engagementBonus
    avg_pr_duration_hours := pyRound1 avgDuration
    avg_pr_engagement := pyRound1 avgEngagement }

/-! Theorems for the claims about the cache (C3, C4, C8, C10). -/

theorem cacheSet_read (store : CacheStore) (now : Int) (url : String) (ps : Params)
    (data : Json) :
    cacheSet store now url ps data (cacheKey url ps) =
      some (FileState.val (mkCacheFile now data)) := by
  simp [cacheSet]

/-- C3: set(url, params, data) followed immediately by get(url, params) on
the same cache returns data unchanged, for any JSON value and any
nonnegative ttl_hours (immediately means the clock has not advanced, so
the staleness test now minus timestamp greater than ttl fails). -/
theorem cache_roundTrip (store : CacheStore) (url : String) (ps : Params) (data : Json)
    (now : Int) (ttlHours : Int) (h : 0 ≤ ttlHours) :
    cacheGet (cacheSet store now url ps data) ttlHours now url ps =
      Except.ok (some data) := by
  unfold cacheGet
  rw [cacheSet_read]
  have h1 : [(tsKey, Json.str (isoFormat now)), (dataKey, data)].lookup tsKey =
      some (Json.str (isoFormat now)) := by
    simp [List.lookup]
  have h2 : [(tsKey, Json.str (isoFormat now)), (dataKey, data)].lookup dataKey =
      some data := by
    simp only [List.lookup]
    rw [show (dataKey == tsKey) = false by decide, show (dataKey == dataKey) = true by decide]
  show (match List.lookup tsKey [(tsKey, Json.str (isoFormat now)), (dataKey, data)] with
        | none => Except.ok none
        | some (Json.str s) =>
          match fromIso s with
          | none => Except.error PyErr.valueError
          | some t =>
            if 3600 * ttlHours < now - t then Except.ok none
            else
              match List.lookup dataKey [(tsKey, Json.str (isoFormat now)), (dataKey, data)] with
              | none => Except.ok none
              | some d => Except.ok (some d)
        | some _ => Except.error PyErr.typeError) = Except.ok (some data)
  rw [h1]
  show (match fromIso (isoFormat now) with
        | none => Except.error PyErr.valueError
        | some t =>
          if 3600 * ttlHours < now - t then Except.ok none
          else
            match List.lookup dataKey [(tsKey, Json.str (isoFormat now)), (dataKey, data)] with
            | none => Except.ok none
            | some d => Except.ok (some d)) = Except.ok (some data)
  rw [fromIso_isoFormat]
  show (if 3600 * ttlHours < now - now then Except.ok none
        else
          match List.lookup dataKey [(tsKey, Json.str (isoFormat now)), (dataKey, data)] with
          | none => Except.ok none
          | some d => Except.ok (some d)) = Except.ok (some data)
  rw [if_neg (by omega), h2]

/-- C3 witness: a concrete round trip through the theorem. -/
theorem cache_roundTrip_witness :
    (0 : Int) ≤ 24 ∧
    cacheGet (cacheSet (fun _ => none) 1700000000 ("u") [] (Json.num 7)) 24 1700000000
        ("u") [] = Except.ok (some (Json.num 7)) :=
  ⟨by decide, cache_roundTrip (fun _ => none) ("u") [] (Json.num 7) 1700000000 24 (by decide)⟩

/-- C10: with ttl_hours zero (the no-cache configuration), any positive
elapsed time since set makes get return a miss, while set still wrote the
file for the key. -/
theorem cache_ttlZero (store : CacheStore) (url : String) (ps : Params) (data : Json)
    (now elapsed : Int) (h : 0 < elapsed) :
    cacheGet (cacheSet store now url ps data) 0 (now + elapsed) url ps = Except.ok none ∧
    cacheSet store now url ps data (cacheKey url ps) =
      some (FileState.val (mkCacheFile now data)) := by
  refine ⟨?_, cacheSet_read store now url ps data⟩
  unfold cacheGet
  rw [cacheSet_read]
  have h1 : [(tsKey, Json.str (isoFormat now)), (dataKey, data)].lookup tsKey =
      some (Json.str (isoFormat now)) := by
    simp [List.lookup]
  show (match List.lookup tsKey [(tsKey, Json.str (isoFormat now)), (dataKey, data)] with
        | none => Except.ok none
        | some (Json.str s) =>
          match fromIso s with
          | none => Except.error PyErr.valueError
          | some t =>
            if 3600 * 0 < now + elapsed - t then Except.ok none
            else
              match List.lookup dataKey [(tsKey, Json.str (isoFormat now)), (dataKey, data)] with
              | none => Except.ok none
              | some d => Except.ok (some d)
        | some _ => Except.error PyErr.typeError) = Except.ok none
  rw [h1]
  show (match fromIso (isoFormat now) with
        | none => Except.error PyErr.valueError
        | some t =>
          if 3600 * 0 < now + elapsed - t then Except.ok none
          else
            match List.lookup dataKey [(tsKey, Json.str (isoFormat now)), (dataKey, data)] with
            | none => Except.ok none
            | some d => Except.ok (some d)) = Except.ok none
  rw [fromIso_isoFormat]
  show (if 3600 * 0 < now + elapsed - now then Except.ok none
        else
          match List.lookup dataKey [(tsKey, Json.str (isoFormat now)), (dataKey, data)] with
          | none => Except.ok none
          | some d => Except.ok (some d)) = Except.ok none
  rw [if_pos (by omega)]

/-- C10 witness: a concrete expired read through the theorem. -/
theorem cache_ttlZero_witness :
    (0 : Int) < 1 ∧
    (cacheGet (cacheSet (fun _ => none) 100 ("u") [] (Json.num 7)) 0 101 ("u") [] =
        Except.ok none ∧
      cacheSet (fun _ => none) 100 ("u") [] (Json.num 7) (cacheKey ("u") []) =
        some (FileState.val (mkCacheFile 100 (Json.num 7)))) :=
  ⟨by decide, cache_ttlZero (fun _ => none) ("u") [] (Json.num 7) 100 1 (by decide)⟩

/-- A cache directory holding one syntactically valid JSON file whose
timestamp entry is not a parseable timestamp string. -/
def corruptStore : CacheStore :=
  fun k =>
    if k = cacheKey ("u") [] then
      some (FileState.val (Json.obj [(tsKey, Json.str ("not-a-date")), (dataKey, Json.arr [])]))
    else none

/-- C4 (counterexample): a corrupt cache file is not always downgraded to
a miss.  A file that parses as JSON but whose timestamp string is
malformed makes fromisoformat raise ValueError, which the except clause
(json.JSONDecodeError, KeyError) does not catch, so get propagates the
error instead of returning a miss. -/
theorem cacheGet_corrupt_raises :
    cacheGet corruptStore 24 0 ("u") [] = Except.error PyErr.valueError := by
  rfl

/-- C4 (amended): a missing file, a file that fails JSON parsing, and a
parsed file lacking the timestamp or data key are each treated as a cache
miss without raising. -/
theorem cacheGet_corrupt_miss (store : CacheStore) (ttlHours now : Int) (url : String)
    (ps : Params) :
    (store (cacheKey url ps) = none → cacheGet store ttlHours now url ps = Except.ok none) ∧
    (store (cacheKey url ps) = some FileState.invalid →
      cacheGet store ttlHours now url ps = Except.ok none) ∧
    (∀ fields, store (cacheKey url ps) = some (FileState.val (Json.obj fields)) →
      fields.lookup tsKey = none → cacheGet store ttlHours now url ps = Except.ok none) ∧
    (∀ fields s t, store (cacheKey url ps) = some (FileState.val (Json.obj fields)) →
      fields.lookup tsKey = some (Json.str s) → fromIso s = some t →
      ¬ (3600 * ttlHours < now - t) → fields.lookup dataKey = none →
      cacheGet store ttlHours now url ps = Except.ok none) := by
  refine ⟨?_, ?_, ?_, ?_⟩
  · intro h; unfold cacheGet; rw [h]
  · intro h; unfold cacheGet; rw [h]
  · intro fields h hts
    unfold cacheGet
    rw [h]
    show (match List.lookup tsKey fields with
          | none => Except.ok none
          | some (Json.str s) =>
            match fromIso s with
            | none => Except.error PyErr.valueError
            | some t =>
              if 3600 * ttlHours < now - t then Except.ok none
              else
                match List.lookup dataKey fields with
                | none => Except.ok none
                | some d => Except.ok (some d)
          | some _ => Except.error PyErr.typeError) = Except.ok none
    rw [hts]
  · intro fields s t h hts hiso httl hdat
    unfold cacheGet
    rw [h]
    show (match List.lookup tsKey fields with
          | none => Except.ok none
          | some (Json.str s) =>
            match fromIso s with
            | none => Except.error PyErr.valueError
            | some t =>
              if 3600 * ttlHours < now - t then Except.ok none
              else
                match List.lookup dataKey fields with
                | none => Except.ok none
                | some d => Except.ok (some d)
          | some _ => Except.error PyErr.typeError) = Except.ok none
    rw [hts]
    show (match fromIso s with
          | none => Except.error PyErr.valueError
          | some t =>
            if 3600 * ttlHours < now - t then Except.ok none
            else
              match List.lookup dataKey fields with
              | none => Except.ok none
              | some d => Except.ok (some d)) = Except.ok none
    rw [hiso]
    show (if 3600 * ttlHours < now - t then Except.ok none
          else
            match List.lookup dataKey fields with
            | none => Except.ok none
            | some d => Except.ok (some d)) = Except.ok none
    rw [if_neg httl, hdat]

/-- A cache directory holding one file that is not valid JSON. -/
def invalidStore : CacheStore :=
  fun k => if k = cacheKey ("u") [] then some FileState.invalid else none

/-- C4 (amended) witness: the unparseable-JSON case through the theorem. -/
theorem cacheGet_corrupt_miss_witness :
    invalidStore (cacheKey ("u") []) = some FileState.invalid ∧
    cacheGet invalidStore 24 0 ("u") [] = Except.ok none :=
  ⟨rfl, (cacheGet_corrupt_miss invalidStore 24 0 ("u") []).2.1 rfl⟩

/-! Theorems for the cache-key stability claim (C8). -/

/-- Strict ordering of dict entries by key. -/
def keyLt (a b : String × PVal) : Prop := a.1 < b.1

instance : IsTotal (String × PVal) keyLe := ⟨fun a b => le_total a.1 b.1⟩

instance : IsTrans (String × PVal) keyLe := ⟨fun a b c h1 h2 => le_trans h1 h2⟩

instance : IsAntisymm (String × PVal) keyLt :=
  ⟨fun a b h1 h2 => absurd h2 (lt_asymm h1)⟩

theorem sortParams_pairwise_lt (ps : Params) (hnodup : (ps.map Prod.fst).Nodup) :
    List.Pairwise keyLt (sortParams ps) := by
  have hsorted : List.Sorted keyLe (sortParams ps) := List.sorted_insertionSort keyLe ps
  have hmapperm : List.Perm ((sortParams ps).map Prod.fst) (ps.map Prod.fst) :=
    (List.perm_insertionSort keyLe ps).map Prod.fst
  have hnd : ((sortParams ps).map Prod.fst).Nodup := hmapperm.nodup_iff.mpr hnodup
  have hne : List.Pairwise (fun a b : String × PVal => a.1 ≠ b.1) (sortParams ps) :=
    List.pairwise_map.mp hnd
  exact (List.Pairwise.and hsorted hne).imp (fun h => lt_of_le_of_ne h.1 h.2)

theorem sortParams_perm_eq (ps1 ps2 : Params) (hperm : ps1.Perm ps2)
    (hnodup : (ps1.map Prod.fst).Nodup) : sortParams ps1 = sortParams ps2 := by
  have hnodup2 : (ps2.map Prod.fst).Nodup := ((hperm.map Prod.fst).nodup_iff).mp hnodup
  have hp : List.Perm (sortParams ps1) (sortParams ps2) :=
    ((List.perm_insertionSort keyLe ps1).trans hperm).trans
      (List.perm_insertionSort keyLe ps2).symm
  exact List.eq_of_perm_of_sorted hp (sortParams_pairwise_lt ps1 hnodup)
    (sortParams_pairwise_lt ps2 hnodup2)

/-- C8: two params dicts that are equal as key-value mappings but
enumerate their entries in different orders produce the same cache key
(the serialization sorts keys), hence get and set address the same cache
entry for both orderings. -/
theorem cacheKey_order_independent (url : String) (ps1 ps2 : Params)
    (hperm : ps1.Perm ps2) (hnodup : (ps1.map Prod.fst).Nodup) :
    cacheKey url ps1 = cacheKey url ps2 ∧
    (∀ store ttlHours now,
      cacheGet store ttlHours now url ps1 = cacheGet store ttlHours now url ps2) ∧
    (∀ store now data,
      cacheSet store now url ps1 data = cacheSet store now url ps2 data) := by
  have hk : cacheKey url ps1 = cacheKey url ps2 := by
    unfold cacheKey cacheKeyContent dumpsParams
    rw [sortParams_perm_eq ps1 ps2 hperm hnodup]
  refine ⟨hk, ?_, ?_⟩
  · intro store ttlHours now
    unfold cacheGet
    rw [hk]
  · intro store now data
    unfold cacheSet
    rw [hk]

/-- C8 witness: the two orderings of the spec example through the
theorem. -/
theorem cacheKey_order_independent_witness :
    ([(("a"), PVal.int 1), (("b"), PVal.int 2)] : Params).Perm
        [(("b"), PVal.int 2), (("a"), PVal.int 1)] ∧
    (([(("a"), PVal.int 1), (("b"), PVal.int 2)] : Params).map Prod.fst).Nodup ∧
    cacheKey ("u") [(("a"), PVal.int 1), (("b"), PVal.int 2)] =
      cacheKey ("u") [(("b"), PVal.int 2), (("a"), PVal.int 1)] :=
  ⟨by decide, by decide,
    (cacheKey_order_independent ("u") [(("a"), PVal.int 1), (("b"), PVal.int 2)]
      [(("b"), PVal.int 2), (("a"), PVal.int 1)] (by decide) (by decide)).1⟩

/-! Theorems for the rate-limit claims (C6, C7). -/

/-- An HTTP response that carries no X-RateLimit headers. -/
def missingHeaders : HeadersModel :=
  { remaining := none, limit := none, reset := none }

/-- C6 (code bug): on a response with no rate-limit headers the parsed
snapshot defaults remaining, limit and reset to zero as the claim says,
but _update_rate_limit then computes remaining divided by limit, so it
raises ZeroDivisionError instead of completing without raising. -/
theorem updateRateLimit_missing_headers_raises :
    updateRateLimit missingHeaders = Except.error PyErr.zeroDivisionError ∧
    rateLimitFromResponse missingHeaders =
      { remaining := 0, limit := 0, reset_time := 0 } := by
  constructor <;> rfl

/-- C7: with a stored snapshot showing zero remaining requests and a reset
time still in the future, the wait sleeps exactly reset minus now plus one
second; with the reset time already past, or with requests remaining, it
returns without sleeping. -/
theorem waitForRateLimit_spec (r : RateLimit) (now : Rat) :
    (r.remaining = 0 → now < r.reset_time →
      waitForRateLimit (some r) now = some (r.reset_time - now + 1)) ∧
    (r.reset_time < now → waitForRateLimit (some r) now = none) ∧
    (0 < r.remaining → waitForRateLimit (some r) now = none) := by
  refine ⟨?_, ?_, ?_⟩
  · intro h0 hf
    show (if r.remaining = 0 then
            if 0 < r.reset_time - now then some (r.reset_time - now + 1) else none
          else none) = some (r.reset_time - now + 1)
    rw [if_pos h0, if_pos (by linarith)]
  · intro hp
    show (if r.remaining = 0 then
            if 0 < r.reset_time - now then some (r.reset_time - now + 1) else none
          else none) = none
    by_cases h0 : r.remaining = 0
    · rw [if_pos h0, if_neg (by linarith)]
    · rw [if_neg h0]
  · intro hpos
    show (if r.remaining = 0 then
            if 0 < r.reset_time - now then some (r.reset_time - now + 1) else none
          else none) = none
    rw [if_neg (by omega)]

/-- C7 witness: a snapshot with zero remaining and reset two seconds
ahead sleeps three seconds, through the theorem. -/
theorem waitForRateLimit_spec_witness :
    ({ remaining := 0, limit := 5000, reset_time := 102 } : RateLimit).remaining = 0 ∧
    (100 : Rat) < 102 ∧
    waitForRateLimit (some { remaining := 0, limit := 5000, reset_time := 102 }) 100 =
      some 3 := by
  refine ⟨rfl, by norm_num, ?_⟩
  have h :=
    (waitForRateLimit_spec { remaining := 0, limit := 5000, reset_time := 102 } 100).1
      rfl (by norm_num)
  rw [h]
  norm_num

/-! Theorems for the pagination claims (C1, C2). -/

theorem chainOk_length :
    ∀ pages urls, chainOk pages urls = true → urls.length + 1 = pages.length := by
  intro pages
  induction pages with
  | nil => intro urls h; cases urls <;> simp [chainOk] at h
  | cons r rest ih =>
    intro urls h
    cases urls with
    | nil =>
      cases rest with
      | nil => rfl
      | cons r2 rest2 => simp [chainOk] at h
    | cons u us =>
      simp only [chainOk, Bool.and_eq_true] at h
      have := ih us h.2
      simp only [List.length_cons]
      omega

/-- C1 (amended): over any well-linked chain of successful list pages
whose next urls never equal the original request url, a cache-miss fetch
returns the concatenation of the pages items in page order, issues exactly
one GET per page, attaches the callers params only to the first request,
and requests each server-provided next url verbatim; the accumulated list
is stored back in the cache under the original key.  (Without the proviso
the params are re-attached to any later request whose url equals the
original one, which is the counterexample below.) -/
theorem paginatedGet_chain (store : CacheStore) (ttlHours now : Int) (url : String)
    (ps : Params) (pages : List PageResponse) (urls : List String)
    (hmiss : cacheGet store ttlHours now url ps = Except.ok none)
    (hurl : url.isEmpty = false)
    (hchain : chainOk pages urls = true)
    (hnotin : url ∉ urls) :
    paginatedGet store ttlHours now url ps pages =
      Except.ok (Json.arr (itemsOf pages),
        (url, some ps) :: urls.map (fun u => (u, none)),
        cacheSet store now url ps (Json.arr (itemsOf pages))) ∧
    urls.length + 1 = pages.length := by
  refine ⟨?_, chainOk_length pages urls hchain⟩
  unfold paginatedGet
  rw [hmiss]
  rw [paginatedLoop_chain url ps pages urls url [] [] hchain hurl]
  have hfirst : reqParams url ps url = some ps := by
    simp [reqParams]
  have hrest : urls.map (fun u => (u, reqParams url ps u)) = urls.map (fun u => (u, none)) := by
    apply List.map_congr_left
    intro u hu
    have hne : u ≠ url := fun h => hnotin (h ▸ hu)
    simp [reqParams, hne]
  rw [hfirst, hrest]
  simp

/-- Three scripted pages: the third has no next relation. -/
def pageA : PageResponse :=
  { status := 200, body := Body.items [Json.num 1, Json.num 2], next := some ("u2") }

def pageB : PageResponse :=
  { status := 200, body := Body.items [Json.num 3], next := some ("u3") }

def pageC : PageResponse :=
  { status := 200, body := Body.items [Json.num 4], next := none }

/-- An empty cache directory. -/
def emptyStore : CacheStore := fun _ => none

/-- C1 (amended) witness: the three-page chain of the spec through the
theorem; three requests for three pages. -/
theorem paginatedGet_chain_witness :
    cacheGet emptyStore 24 0 ("u1") [] = Except.ok none ∧
    chainOk [pageA, pageB, pageC] [("u2"), ("u3")] = true ∧
    ("u1") ∉ [("u2"), ("u3")] ∧
    (paginatedGet emptyStore 24 0 ("u1") [] [pageA, pageB, pageC] =
        Except.ok (Json.arr (itemsOf [pageA, pageB, pageC]),
          [(("u1"), some []), (("u2"), none), (("u3"), none)],
          cacheSet emptyStore 0 ("u1") [] (Json.arr (itemsOf [pageA, pageB, pageC]))) ∧
      ([("u2"), ("u3")] : List String).length + 1 = [pageA, pageB, pageC].length) :=
  ⟨rfl, by decide, by decide,
    paginatedGet_chain emptyStore 24 0 ("u1") [] [pageA, pageB, pageC] [("u2"), ("u3")]
      rfl rfl (by decide) (by decide)⟩

/-- First page of the counterexample chain: its next url equals the
original request url. -/
def cexPage1 : PageResponse :=
  { status := 200, body := Body.items [Json.num 1], next := some ("u") }

/-- Second page of the counterexample chain: terminal. -/
def cexPage2 : PageResponse :=
  { status := 200, body := Body.items [Json.num 2], next := none }

/-- The callers query parameters of the counterexample. -/
def cexParams : Params := [(("state"), PVal.str ("all"))]

/-- C1 (counterexample): a well-linked chain of successful pages on which
the claim as stated fails.  The next relation of the first page is the
original request url, so the condition current_url == url of the source
re-attaches the callers params to the second request: the params are not
attached only to the first request. -/
theorem paginatedGet_params_reattached :
    chainOk [cexPage1, cexPage2] [("u")] = true ∧
    ¬ paramsOnlyFirst (pgLog (paginatedGet emptyStore 24 0 ("u") cexParams
        [cexPage1, cexPage2])) := by
  constructor
  · decide
  · intro h
    have h2 := h 0 (("u"), some cexParams) rfl
    exact Option.noConfusion h2

/-- C2: a cache-miss fetch whose first response is a successful non-list
JSON body returns the one-element list holding that body, issues exactly
one request, follows no pagination, and caches the singleton. -/
theorem paginatedGet_nonList (store : CacheStore) (ttlHours now : Int) (url : String)
    (ps : Params) (j : Json) (r : PageResponse) (rest : List PageResponse)
    (hmiss : cacheGet store ttlHours now url ps = Except.ok none)
    (hurl : url.isEmpty = false)
    (hstatus : r.status < 400)
    (hbody : r.body = Body.single j) :
    paginatedGet store ttlHours now url ps (r :: rest) =
      Except.ok (Json.arr [j], [(url, some ps)],
        cacheSet store now url ps (Json.arr [j])) := by
  unfold paginatedGet
  rw [hmiss]
  unfold paginatedLoop
  rw [hurl]
  simp only [Bool.false_eq_true, if_false]
  rw [if_neg (by omega), hbody]
  simp

/-- A single-object response carrying a Link header with a next relation
and a trailing scripted page, neither of which must be consumed. -/
def singlePage : PageResponse :=
  { status := 200, body := Body.single (Json.obj [(("login"), Json.str ("alice"))]),
    next := some ("u9") }

/-- C2 witness: the single-object response through the theorem; one
request even though a next relation and a further page are available. -/
theorem paginatedGet_nonList_witness :
    cacheGet emptyStore 24 0 ("v1") [] = Except.ok none ∧
    singlePage.status < 400 ∧
    singlePage.body = Body.single (Json.obj [(("login"), Json.str ("alice"))]) ∧
    paginatedGet emptyStore 24 0 ("v1") [] [singlePage, pageC] =
      Except.ok (Json.arr [Json.obj [(("login"), Json.str ("alice"))]],
        [(("v1"), some [])],
        cacheSet emptyStore 0 ("v1") []
          (Json.arr [Json.obj [(("login"), Json.str ("alice"))]])) :=
  ⟨rfl, by decide, rfl,
    paginatedGet_nonList emptyStore 24 0 ("v1") []
      (Json.obj [(("login"), Json.str ("alice"))]) singlePage [pageC] rfl rfl
      (by decide) rfl⟩

/-! Theorems for the fan-out fault-isolation claim (C5). -/

theorem countP_number_one :
    ∀ (prs : List PR) (n : Nat), (prs.map PR.number).Nodup → n ∈ prs.map PR.number →
      prs.countP (fun p => p.number == n) = 1 := by
  intro prs
  induction prs with
  | nil => intro n _ hmem; simp at hmem
  | cons p l ih =>
    intro n hnd hmem
    simp only [List.map_cons, List.nodup_cons] at hnd
    obtain ⟨hnotin, hnd'⟩ := hnd
    simp only [List.map_cons, List.mem_cons] at hmem
    rcases hmem with heq | hmem'
    · subst heq
      rw [List.countP_cons_of_pos]
      · have hz : l.countP (fun q => q.number == p.number) = 0 := by
          rw [List.countP_eq_zero]
          intro q hq hq'
          exact hnotin (by
            have : q.number = p.number := by simpa using hq'
            exact this ▸ List.mem_map_of_mem PR.number hq)
        rw [hz]
      · simp
    · have hne : p.number ≠ n := fun h => hnotin (h ▸ hmem')
      rw [List.countP_cons_of_neg]
      · exact ih n hnd' hmem'
      · simp [hne]

theorem length_countP_number_split (prs : List PR) (n : Nat) :
    prs.length = prs.countP (fun p => p.number == n) +
      prs.countP (fun p => !(p.number == n)) := by
  induction prs with
  | nil => rfl
  | cons a l ih =>
    by_cases h : (a.number == n) = true
    · have h1 : List.countP (fun p => p.number == n) (a :: l) =
          List.countP (fun p => p.number == n) l + 1 :=
        List.countP_cons_of_pos _ _ h
      have h2 : List.countP (fun p => !(p.number == n)) (a :: l) =
          List.countP (fun p => !(p.number == n)) l :=
        List.countP_cons_of_neg _ _ (by simp [h])
      rw [List.length_cons, h1, h2, ih]
      omega
    · have hb : (a.number == n) = false := by simpa using h
      have h1 : List.countP (fun p => p.number == n) (a :: l) =
          List.countP (fun p => p.number == n) l :=
        List.countP_cons_of_neg _ _ (by simp [hb])
      have h2 : List.countP (fun p => !(p.number == n)) (a :: l) =
          List.countP (fun p => !(p.number == n)) l + 1 :=
        List.countP_cons_of_pos _ _ (by simp [hb])
      rw [List.length_cons, h1, h2, ih]
      omega

theorem processPr_isSome (fetch : Nat → Except PyErr PRDetail) (p : PR) :
    (processPr fetch p).isSome = !(raises (fetch p.number)) := by
  unfold processPr raises
  cases fetch p.number <;> rfl

/-- C5: when the per-PR worker raises for exactly one of the submitted
PRs, the fan-out collection (in any completion order) returns a mapping
with an entry for every other PR and none for the failing one - one fewer
entry than PRs submitted - and the collection itself completes normally
rather than raising or aborting sibling tasks. -/
theorem mapConcurrently_isolation (fetch : Nat → Except PyErr PRDetail)
    (prs order : List PR) (f : PR)
    (hperm : List.Perm order prs)
    (hnodup : (prs.map PR.number).Nodup)
    (hf : f ∈ prs)
    (hfail : raises (fetch f.number) = true)
    (hok : ∀ p ∈ prs, p.number ≠ f.number → raises (fetch p.number) = false) :
    (mapConcurrently (processPr fetch) order).length = prs.length - 1 ∧
    f.number ∉ resultKeys (mapConcurrently (processPr fetch) order) ∧
    (∀ p ∈ prs, p.number ≠ f.number →
      p.number ∈ resultKeys (mapConcurrently (processPr fetch) order)) := by
  refine ⟨?_, ?_, ?_⟩
  · unfold mapConcurrently
    rw [List.length_filterMap_eq_countP, hperm.countP_eq]
    have hcongr : ∀ p ∈ prs,
        ((processPr fetch p).isSome = true) ↔ ((p.number != f.number) = true) := by
      intro p hp
      rw [processPr_isSome]
      by_cases hne : p.number = f.number
      · rw [hne, hfail]
        simp
      · rw [hok p hp hne]
        simp [hne]
    rw [List.countP_congr hcongr]
    have hone : prs.countP (fun p => p.number == f.number) = 1 :=
      countP_number_one prs f.number hnodup (List.mem_map_of_mem PR.number hf)
    have hsplit : prs.length = prs.countP (fun p => p.number == f.number) +
        prs.countP (fun p => !(p.number == f.number)) :=
      length_countP_number_split prs f.number
    have hbne : prs.countP (fun p => p.number != f.number) =
        prs.countP (fun p => !(p.number == f.number)) := rfl
    omega
  · intro hmem
    unfold resultKeys mapConcurrently at hmem
    obtain ⟨pair, hpair, hfst⟩ := List.mem_map.mp hmem
    obtain ⟨a, ha, hpa⟩ := List.mem_filterMap.mp hpair
    unfold processPr at hpa
    cases hfa : fetch a.number with
    | error e => rw [hfa] at hpa; exact Option.noConfusion hpa
    | ok d =>
      rw [hfa] at hpa
      have hpaire : (a.number, d) = pair := by
        simpa using hpa
      have hkey : a.number = f.number := by rw [← hfst, ← hpaire]
      have hina : a ∈ prs := hperm.mem_iff.mp ha
      by_cases hane : a.number = f.number
      · have hokf : raises (fetch f.number) = false := by
          rw [← hane, hfa]; rfl
        rw [hokf] at hfail
        exact Bool.noConfusion hfail
      · exact hane hkey
  · intro p hp hne
    have hok' := hok p hp hne
    cases hfp : fetch p.number with
    | error e => rw [hfp] at hok'; simp [raises] at hok'
    | ok d =>
      unfold resultKeys mapConcurrently
      refine List.mem_map.mpr ⟨(p.number, d), ?_, rfl⟩
      refine List.mem_filterMap.mpr ⟨p, hperm.mem_iff.mpr hp, ?_⟩
      unfold processPr
      rw [hfp]

/-- A PR record with the given number and neutral remaining fields. -/
def mkPR (n : Nat) : PR :=
  { number := n, user_login := ("alice"), state := ("open"), created_at := 0,
    closed_at := 0, additions := 0, deletions := 0 }

/-- Detail fetch oracle of the witness: raises for PR 3, succeeds for
every other PR. -/
def wFetch : Nat → Except PyErr PRDetail := fun n =>
  if n = 3 then Except.error (PyErr.httpError 500)
  else Except.ok { pr := mkPR n, reviews := [], review_comments := [], comments := [] }

/-- The five submitted PRs of the witness. -/
def wPrs : List PR := [mkPR 1, mkPR 2, mkPR 3, mkPR 4, mkPR 5]

/-- A completion order differing from submission order. -/
def wOrder : List PR := [mkPR 2, mkPR 1, mkPR 5, mkPR 3, mkPR 4]

/-- C5 witness: five concurrent tasks, one failing, through the theorem:
the mapping has exactly four entries. -/
theorem mapConcurrently_isolation_witness :
    List.Perm wOrder wPrs ∧
    (wPrs.map PR.number).Nodup ∧
    mkPR 3 ∈ wPrs ∧
    raises (wFetch (mkPR 3).number) = true ∧
    (∀ p ∈ wPrs, p.number ≠ (mkPR 3).number → raises (wFetch p.number) = false) ∧
    ((mapConcurrently (processPr wFetch) wOrder).length = wPrs.length - 1 ∧
      (mkPR 3).number ∉ resultKeys (mapConcurrently (processPr wFetch) wOrder) ∧
      (∀ p ∈ wPrs, p.number ≠ (mkPR 3).number →
        p.number ∈ resultKeys (mapConcurrently (processPr wFetch) wOrder))) :=
  ⟨by decide, by decide, by decide, rfl, by decide,
    mapConcurrently_isolation wFetch wPrs wOrder (mkPR 3) (by decide) (by decide)
      (by decide) rfl (by decide)⟩

/-! Theorems for the MemberStats invariants claim (C9). -/

theorem mem_allReviews {r : Review} :
    ∀ {ds : List PRDetail}, r ∈ allReviews ds → ∃ d ∈ ds, r ∈ d.reviews := by
  intro ds
  induction ds with
  | nil => intro h; simp [allReviews] at h
  | cons d ds ih =>
    intro h
    rw [allReviews] at h
    rcases List.mem_append.mp h with h1 | h2
    · exact ⟨d, List.mem_cons_self d ds, h1⟩
    · obtain ⟨d2, hd2, hr2⟩ := ih h2
      exact ⟨d2, List.mem_cons_of_mem d hd2, hr2⟩

theorem count_three_states (l : List Review)
    (h : ∀ r ∈ l, r.state = ("APPROVED") ∨ r.state = ("CHANGES_REQUESTED") ∨
      r.state = ("COMMENTED")) :
    l.length = l.countP (fun r => r.state == ("APPROVED")) +
      l.countP (fun r => r.state == ("CHANGES_REQUESTED")) +
      l.countP (fun r => r.state == ("COMMENTED")) := by
  induction l with
  | nil => rfl
  | cons r l ih =>
    have hr := h r (List.mem_cons_self r l)
    have ih' := ih (fun x hx => h x (List.mem_cons_of_mem r hx))
    rcases hr with h1 | h1 | h1 <;>
      simp only [List.countP_cons, List.length_cons, h1, ih'] <;>
      simp <;> omega

/-- C9: every MemberStats record satisfies total_comments equal to
review_comments plus pr_comments; and when every review state in the
input data is APPROVED, CHANGES_REQUESTED or COMMENTED, reviews_given
equals the sum of the three per-state counts. -/
theorem memberStats_invariants (commitsOf : Nat → Nat) (now : Rat) (username : String)
    (prData : List PRDetail)
    (h : ∀ d ∈ prData, ∀ r ∈ d.reviews,
      r.state = ("APPROVED") ∨ r.state = ("CHANGES_REQUESTED") ∨
        r.state = ("COMMENTED")) :
    (getMemberStats commitsOf now username prData).total_comments =
      (getMemberStats commitsOf now username prData).review_comments +
        (getMemberStats commitsOf now username prData).pr_comments ∧
    (getMemberStats commitsOf now username prData).reviews_given =
      (getMemberStats commitsOf now username prData).reviews_approved +
        (getMemberStats commitsOf now username prData).reviews_changes_requested +
        (getMemberStats commitsOf now username prData).reviews_commented := by
  constructor
  · rfl
  · show (userReviews username prData).length =
      (userReviews username prData).countP (fun r => r.state == ("APPROVED")) +
        (userReviews username prData).countP (fun r => r.state == ("CHANGES_REQUESTED")) +
        (userReviews username prData).countP (fun r => r.state == ("COMMENTED"))
    apply count_three_states
    intro r hr
    have hr2 : r ∈ allReviews prData := (List.mem_filter.mp hr).1
    obtain ⟨d, hd, hrd⟩ := mem_allReviews hr2
    exact h d hd r hrd

/-- A PR authored by alice used by the C9 witness. -/
def wStatsPR : PR :=
  { number := 11, user_login := ("alice"), state := ("open"), created_at := 0,
    closed_at := 0, additions := 0, deletions := 0 }

/-- The per-PR detail entry of the C9 witness: two reviews by bob plus one
comment each. -/
def wStatsDetail : PRDetail :=
  { pr := wStatsPR,
    reviews := [{ user_login := ("bob"), state := ("APPROVED") },
      { user_login := ("bob"), state := ("COMMENTED") }],
    review_comments := [{ user_login := ("bob") }],
    comments := [{ user_login := ("alice") }] }

/-- C9 witness: concrete member statistics through the theorem. -/
theorem memberStats_invariants_witness :
    (∀ d ∈ [wStatsDetail], ∀ r ∈ d.reviews,
      r.state = ("APPROVED") ∨ r.state = ("CHANGES_REQUESTED") ∨
        r.state = ("COMMENTED")) ∧
    ((getMemberStats (fun _ => 0) 0 ("bob") [wStatsDetail]).total_comments =
        (getMemberStats (fun _ => 0) 0 ("bob") [wStatsDetail]).review_comments +
          (getMemberStats (fun _ => 0) 0 ("bob") [wStatsDetail]).pr_comments ∧
      (getMemberStats (fun _ => 0) 0 ("bob") [wStatsDetail]).reviews_given =
        (getMemberStats (fun _ => 0) 0 ("bob") [wStatsDetail]).reviews_approved +
          (getMemberStats (fun _ => 0) 0 ("bob") [wStatsDetail]).reviews_changes_requested +
          (getMemberStats (fun _ => 0) 0 ("bob") [wStatsDetail]).reviews_commented) :=
  ⟨by decide, memberStats_invariants (fun _ => 0) 0 ("bob") [wStatsDetail] (by decide)⟩
